import Mathlib

/-!
Shallow embedding of the Shopify-order → Mova-ERP conversion core
(`parseShopifyCSV` boundary checks, `cleanPhone`, `formatAddress`,
`parseInvoiceInfo`, `processOrders`, `convertToMovaRows`).

Modelling conventions:
* JavaScript numbers are modelled as `JSNum`: either `nan` or an exact
  rational (`num`, a normalized fraction `Frac`).  Arithmetic propagates
  `nan`; `<` on `nan` is `false`, exactly as in JavaScript.  (Binary-float
  rounding is not modelled; all decimal values are represented exactly.
  The `Infinity` literal accepted by `parseFloat` is not modelled — no
  claim touches it.)
* JavaScript strings are Lean `String`s; absent/`undefined` string fields are
  modelled as `""`, which is equivalent here because every use in the source
  goes through the falsy test (`!x` / `x || y`), and `""` and `undefined`
  are both falsy.
* Regular-expression search (`String.prototype.match`) is modelled by
  explicit leftmost-match scanning functions with the exact backtracking
  behaviour of the two patterns that occur in the source
  (`key\s*([^\n\r]+)` and `key\s*(\d+)`).
-/

/-- An exact rational value, kept in lowest terms with a positive
denominator by the smart operations below.  (A bespoke fraction type is
used instead of `ℚ` so that every operation reduces inside the kernel,
letting concrete runs of the embedded program be checked by `decide`.) -/
structure Frac where
  n : Int
  d : Nat
deriving DecidableEq, Repr

/-- Normalize a fraction to lowest terms (the degenerate 0-denominator case
never arises from the operations below). -/
def Frac.norm (f : Frac) : Frac :=
  let g := f.n.natAbs.gcd f.d
  if g = 0 then { n := 0, d := 1 }
  else { n := f.n / (g : Int), d := f.d / g }

/-- The canonical embedding of an integer. -/
def Frac.ofInt (i : Int) : Frac := { n := i, d := 1 }

/-- Fraction addition (normalized). -/
def Frac.add (a b : Frac) : Frac :=
  Frac.norm { n := a.n * (b.d : Int) + b.n * (a.d : Int), d := a.d * b.d }

/-- Fraction multiplication (normalized). -/
def Frac.mul (a b : Frac) : Frac :=
  Frac.norm { n := a.n * b.n, d := a.d * b.d }

/-- Fraction division (normalized; divisors produced by the embedded code
are always positive powers of ten). -/
def Frac.div (a b : Frac) : Frac :=
  Frac.norm
    { n := a.n * (b.d : Int) * (if b.n < 0 then -1 else 1),
      d := a.d * b.n.natAbs }

/-- Fraction negation. -/
def Frac.neg (a : Frac) : Frac := { n := -a.n, d := a.d }

/-- Fraction strict order (cross multiplication; denominators are
positive). -/
def Frac.blt (a b : Frac) : Bool :=
  decide (a.n * (b.d : Int) < b.n * (a.d : Int))

/-- A JavaScript number: `nan`, or an exact rational value. -/
inductive JSNum where
  | nan : JSNum
  | num : Frac → JSNum
deriving DecidableEq, Repr

/-- The JavaScript number with integer value `i`. -/
def jnum (i : Int) : JSNum := JSNum.num (Frac.ofInt i)

instance : Inhabited JSNum := ⟨jnum 0⟩

/-- JavaScript `+` on numbers: `NaN` propagates. -/
def jadd : JSNum → JSNum → JSNum
  | JSNum.num a, JSNum.num b => JSNum.num (Frac.add a b)
  | _, _ => JSNum.nan

/-- JavaScript `*` on numbers: `NaN` propagates. -/
def jmul : JSNum → JSNum → JSNum
  | JSNum.num a, JSNum.num b => JSNum.num (Frac.mul a b)
  | _, _ => JSNum.nan

/-- JavaScript `<` on numbers: any comparison with `NaN` is `false`. -/
def jlt : JSNum → JSNum → Bool
  | JSNum.num a, JSNum.num b => Frac.blt a b
  | _, _ => false

/-- JavaScript `x || y` on strings (`""` and `undefined` are falsy). -/
def jsOr (a b : String) : String :=
  if a = "" then b else a

/-- JavaScript whitespace class `\s` (ASCII part plus NBSP; the exotic
Unicode space characters never occur in the inputs of interest). -/
def jsWS (c : Char) : Bool :=
  c == ' ' || c == '\t' || c == '\n' || c == '\r' ||
  c == '\x0b' || c == '\x0c' || c.toNat == 0xa0

/-- JavaScript `String.prototype.trim`, over the character list. -/
def jsTrim (s : String) : String :=
  String.mk (((s.toList.dropWhile jsWS).reverse.dropWhile jsWS).reverse)

/-- ASCII lower-casing, modelling `String.prototype.toLowerCase` on the
ASCII values that occur here. -/
def lowerAscii (s : String) : String :=
  String.mk (s.toList.map Char.toLower)

/-- Value of a digit list read in base 10. -/
def digitsToNat (l : List Char) : Nat :=
  l.foldl (fun a c => a * 10 + (c.toNat - 48)) 0

/-- Strip one optional JavaScript sign character; `true` means negative. -/
def splitSign : List Char → Bool × List Char
  | '-' :: t => (true, t)
  | '+' :: t => (false, t)
  | cs => (false, cs)

/-- Ten to a natural power (structural recursion, kernel-friendly). -/
def pow10 : Nat → Nat
  | 0 => 1
  | k + 1 => 10 * pow10 k

/-- JavaScript `parseFloat` (decimal and exponent notation; longest valid
numeric prefix; `NaN` when no digit is found; `Infinity` not modelled).
The value is `(ipart + fpart / 10 ^ |fpart|) * 10 ^ exponent`, signed. -/
def parseFloat (s : String) : JSNum :=
  let cs := s.toList.dropWhile jsWS
  let sgn := splitSign cs
  let cs1 := sgn.2
  let ip := cs1.takeWhile Char.isDigit
  let cs2 := cs1.drop ip.length
  let fp := match cs2 with
    | '.' :: t => t.takeWhile Char.isDigit
    | _ => []
  if ip.isEmpty ∧ fp.isEmpty then JSNum.nan
  else
    let cs3 := match cs2 with
      | '.' :: t => t.drop fp.length
      | _ => cs2
    let ev : Int := match cs3 with
      | c :: t =>
        if c = 'e' ∨ c = 'E' then
          let es := splitSign t
          let ed := es.2.takeWhile Char.isDigit
          if ed.isEmpty then 0
          else if es.1 then -(digitsToNat ed : Int) else (digitsToNat ed : Int)
        else 0
      | [] => 0
    let mant : Frac :=
      Frac.add (Frac.ofInt (digitsToNat ip))
        (Frac.div (Frac.ofInt (digitsToNat fp)) (Frac.ofInt (pow10 fp.length)))
    let mag : Frac :=
      if 0 ≤ ev then Frac.mul mant (Frac.ofInt (pow10 ev.toNat))
      else Frac.div mant (Frac.ofInt (pow10 (-ev).toNat))
    JSNum.num (if sgn.1 then Frac.neg mag else mag)

/-- JavaScript `parseInt(s, 10)`: longest decimal-digit prefix after
optional whitespace and sign; `NaN` when no digit is found. -/
def parseInt10 (s : String) : JSNum :=
  let cs := s.toList.dropWhile jsWS
  let sgn := splitSign cs
  let d := sgn.2.takeWhile Char.isDigit
  if d.isEmpty then JSNum.nan
  else
    JSNum.num
      (if sgn.1 then Frac.ofInt (-(digitsToNat d : Int))
       else Frac.ofInt (digitsToNat d))

/-- Character admissible in the `[^\n\r]` regex class. -/
def nonNL (c : Char) : Bool :=
  !(c == '\n' || c == '\r')

/-- Backtracking tail of the regex `\s*([^\n\r]+)` at one anchor: try the
offsets `k, k-1, …, 0` into `cs` (the greedy whitespace run first), and at
the first offset whose character is not a line break, capture the maximal
run of non-line-break characters. -/
def btNL (cs : List Char) : Nat → Option (List Char)
  | 0 =>
    match cs with
    | c :: _ => if nonNL c then some (cs.takeWhile nonNL) else none
    | [] => none
  | Nat.succ k =>
    match cs.drop (k + 1) with
    | c :: _ =>
      if nonNL c then some ((cs.drop (k + 1)).takeWhile nonNL)
      else btNL cs k
    | [] => btNL cs k

/-- Leftmost match of the regex `key\s*([^\n\r]+)` in `s`, returning the
capture group (as `String.prototype.match` does for the source patterns
`發票種類\(InvoiceType\):\s*([^\n\r]+)` and
`公司名稱\(CompanyName\):\s*([^\n\r]+)`). -/
def scanNL (key : List Char) (s : List Char) : Option (List Char) :=
  match s with
  | [] => none
  | _ :: t =>
    if key.isPrefixOf s then
      let rest := s.drop key.length
      match btNL rest (rest.takeWhile jsWS).length with
      | some cap => some cap
      | none => scanNL key t
    else scanNL key t

/-- Leftmost match of the regex `key\s*(\d+)` in `s`, returning the capture
group (the source pattern `統一編號\(CompanyId\):\s*(\d+)`); `\s` and `\d`
are disjoint, so no backtracking is possible here. -/
def scanD (key : List Char) (s : List Char) : Option (List Char) :=
  match s with
  | [] => none
  | _ :: t =>
    if key.isPrefixOf s then
      let rest := (s.drop key.length).dropWhile jsWS
      let d := rest.takeWhile Char.isDigit
      if d.isEmpty then scanD key t else some d
    else scanD key t

/-- One raw CSV record as produced by the external CSV tokenizer: the
header-keyed fields in header order (models a JS object's insertion-ordered
own keys). -/
abbrev RawRecord := List (String × String)

/-- JavaScript `'k' in obj` on a raw record. -/
def hasKey (r : RawRecord) (k : String) : Bool :=
  r.any (fun p => p.1 == k)

/-- JavaScript `Object.keys(obj).join(', ')` on a raw record. -/
def detectedKeys (r : RawRecord) : String :=
  String.intercalate ", " (r.map (fun p => p.1))

/-- Error message for an empty parse result (source: `'檔案內容為空'`). -/
def emptyInputMsg : String := "檔案內容為空"

/-- Error message for a first record without a `Name` key, enumerating the
detected header set (source template literal). -/
def missingNameMsg (r : RawRecord) : String :=
  "CSV 格式錯誤: 找不到 \"Name\" 欄位。請確認上傳的是 Shopify 訂單匯出檔。\n偵測到的欄位: "
    ++ detectedKeys r

/-- Post-tokenizer boundary checks of `parseShopifyCSV` (the tokenizing
itself is the external Papa.parse collaborator): reject an empty row list,
reject a first record lacking the `Name` key, otherwise accept the rows. -/
def parseShopifyCSV (rows : List RawRecord) : Except String (List RawRecord) :=
  match rows with
  | [] => Except.error emptyInputMsg
  | r :: _ =>
    if hasKey r "Name" then Except.ok rows
    else Except.error (missingNameMsg r)

/-- One source CSV row with the fields `processOrders` reads.  Field names
are the source's header keys with spaces removed (for example
`LineitemName` is the source's `row['Lineitem name']`).  Absent fields
default to `""`. -/
structure ShopifyOrderRow where
  Id : String := ""
  Name : String := ""
  Email : String := ""
  Subtotal : String := ""
  Shipping : String := ""
  Total : String := ""
  ShippingMethod : String := ""
  CreatedAt : String := ""
  LineitemQuantity : String := ""
  LineitemName : String := ""
  LineitemPrice : String := ""
  LineitemSku : String := ""
  BillingName : String := ""
  BillingStreet : String := ""
  BillingCity : String := ""
  BillingZip : String := ""
  BillingPhone : String := ""
  ShippingName : String := ""
  ShippingStreet : String := ""
  ShippingCity : String := ""
  ShippingZip : String := ""
  ShippingPhone : String := ""
  NoteAttributes : String := ""
  PaymentReferences : String := ""
  PaymentReference : String := ""
deriving DecidableEq, Repr, Inhabited

/-- Customer sub-record of a `ProcessedOrder`. -/
structure Customer where
  name : String := ""
  phone : String := ""
  address : String := ""
  city : String := ""
  zip : String := ""
deriving DecidableEq, Repr, Inhabited

/-- One processed line item (`ProcessedItem` in `types.ts`). -/
structure ProcessedItem where
  sku : String := ""
  name : String := ""
  quantity : JSNum := jnum 0
  price : JSNum := jnum 0
  isSystemAddon : Bool := false
deriving DecidableEq, Repr, Inhabited

/-- One aggregated order (`ProcessedOrder` in `types.ts`). -/
structure ProcessedOrder where
  orderId : String := ""
  shopifyId : String := ""
  paymentRef : String := ""
  carrierId : String := ""
  taxId : String := ""
  companyName : String := ""
  email : String := ""
  createdAt : String := ""
  shippingMethod : String := ""
  customer : Customer := {}
  items : List ProcessedItem := []
  subtotal : JSNum := jnum 0
  originalSubtotal : JSNum := jnum 0
  shippingFee : JSNum := jnum 0
  total : JSNum := jnum 0
  warnings : List String := []
deriving DecidableEq, Repr, Inhabited

/-- Source `cleanPhone`: early-return on falsy input, strip non-digits,
replace a leading `886` by `0`, then prepend `0` to a bare 9-digit mobile
number starting with `9`.  String tests are performed on character lists
(`startsWith "886"` is `['8','8','6'].isPrefixOf`, `startsWith '9'` is a
head test). -/
def cleanPhone (phone : String) : String :=
  if phone = "" then ""
  else
    let p := phone.toList.filter Char.isDigit
    let p1 := if ['8', '8', '6'].isPrefixOf p then '0' :: p.drop 3 else p
    let p2 := if ['9'].isPrefixOf p1 ∧ p1.length = 9 then '0' :: p1 else p1
    String.mk p2

/-- The phone algorithm as the specification words it: strip every
non-digit; if the result begins with `886`, replace that with a leading
`0`; else if it has exactly 9 digits and begins with `9`, prepend `0`. -/
def cleanPhoneSpec (s : String) : String :=
  let p := s.toList.filter Char.isDigit
  if ['8', '8', '6'].isPrefixOf p then String.mk ('0' :: p.drop 3)
  else if ['9'].isPrefixOf p ∧ p.length = 9 then String.mk ('0' :: p)
  else String.mk p

/-- Source `formatAddress`: the `Shipping Street` value trimmed when truthy,
else `Billing Street || ''`. -/
def formatAddress (row : ShopifyOrderRow) : String :=
  if row.ShippingStreet ≠ "" then jsTrim row.ShippingStreet
  else jsOr row.BillingStreet ""

/-- Literal key of the source regex `發票種類\(InvoiceType\):`. -/
def invoiceTypeKey : String := "發票種類(InvoiceType):"

/-- Literal key of the source regex `統一編號\(CompanyId\):`. -/
def companyIdKey : String := "統一編號(CompanyId):"

/-- Literal key of the source regex `公司名稱\(CompanyName\):`. -/
def companyNameKey : String := "公司名稱(CompanyName):"

/-- Source `typeMatch ? typeMatch[1].trim().toLowerCase() : ''`. -/
def invoiceTypeOf (attrs : String) : String :=
  match scanNL invoiceTypeKey.toList attrs.toList with
  | some c => lowerAscii (jsTrim (String.mk c))
  | none => ""

/-- Source `taxIdMatch ? taxIdMatch[1].trim() : ''`. -/
def taxIdOf (attrs : String) : String :=
  match scanD companyIdKey.toList attrs.toList with
  | some c => jsTrim (String.mk c)
  | none => ""

/-- Source `nameMatch ? nameMatch[1].trim() : ''`. -/
def companyNameOf (attrs : String) : String :=
  match scanNL companyNameKey.toList attrs.toList with
  | some c => jsTrim (String.mk c)
  | none => ""

/-- Source `parseInvoiceInfo`: falsy blob or an invoice type other than
`company` (trimmed, lower-cased) yield empty fields; otherwise the
`CompanyId` and `CompanyName` pairs are matched independently, a missing one
yielding `""`. -/
def parseInvoiceInfo (attrs : String) : String × String :=
  if attrs = "" then ("", "")
  else if invoiceTypeOf attrs ≠ "company" then ("", "")
  else (taxIdOf attrs, companyNameOf attrs)

/-- The line item built from one source row (sku/name/quantity/price; the
`isSystemAddon` flag is never set on row-built items). -/
def mkItem (row : ShopifyOrderRow) : ProcessedItem :=
  { sku := jsOr row.LineitemSku ""
    name := row.LineitemName
    quantity := parseInt10 (jsOr row.LineitemQuantity "0")
    price := parseFloat (jsOr row.LineitemPrice "0")
    isSystemAddon := false }

/-- The order record created on the first row seen for an order id
(source: the `orderMap.set(orderId, {...})` initializer). -/
def initOrder (row : ShopifyOrderRow) : ProcessedOrder :=
  { orderId := row.Name
    shopifyId := jsOr row.Id ""
    paymentRef := jsOr row.PaymentReferences (jsOr row.PaymentReference "")
    carrierId := jsOr row.Email ""
    taxId := (parseInvoiceInfo row.NoteAttributes).1
    companyName := (parseInvoiceInfo row.NoteAttributes).2
    email := row.Email
    createdAt := row.CreatedAt
    shippingMethod := jsOr row.ShippingMethod ""
    customer :=
      { name := jsOr row.ShippingName (jsOr row.BillingName "Unknown")
        phone := cleanPhone (jsOr row.ShippingPhone row.BillingPhone)
        address := formatAddress row
        city := jsOr row.ShippingCity (jsOr row.BillingCity "")
        zip := jsOr row.ShippingZip (jsOr row.BillingZip "") }
    items := []
    subtotal := jnum 0
    originalSubtotal := parseFloat (jsOr row.Subtotal "0")
    shippingFee := parseFloat (jsOr row.Shipping "0")
    total := parseFloat (jsOr row.Total "0")
    warnings := [] }

/-- One step of the aggregation loop body of `processOrders`: skip rows
with a falsy `Name`; insert a fresh order on first encounter of an id
(insertion-ordered map modelled as a list keyed by `orderId`); append a
line item when the row has a truthy `Lineitem name`. -/
def addRow (acc : List ProcessedOrder) (row : ShopifyOrderRow) : List ProcessedOrder :=
  if row.Name = "" then acc
  else
    let acc1 :=
      if acc.any (fun o => o.orderId == row.Name) then acc
      else acc ++ [initOrder row]
    if row.LineitemName = "" then acc1
    else
      acc1.map (fun o =>
        if o.orderId == row.Name then { o with items := o.items ++ [mkItem row] }
        else o)

/-- Source `items.reduce((sum, item) => sum + item.price * item.quantity, 0)`. -/
def sumItems (items : List ProcessedItem) : JSNum :=
  items.foldl (fun s it => jadd s (jmul it.price it.quantity)) (jnum 0)

/-- The flat-shipping addon item appended by the threshold rule
(sku `Z90001`, name `運費`, quantity 1, price 120, system addon). -/
def addonItem : ProcessedItem :=
  { sku := "Z90001"
    name := "運費"
    quantity := jnum 1
    price := jnum 120
    isSystemAddon := true }

/-- The per-order post-processing of `processOrders` (the Business Rule
Engine): store the recomputed subtotal, then append the shipping addon when
that subtotal is `< 1000`. -/
def finalizeOrder (o : ProcessedOrder) : ProcessedOrder :=
  let sub := sumItems o.items
  let o1 := { o with subtotal := sub }
  if jlt sub (jnum 1000) then { o1 with items := o1.items ++ [addonItem] }
  else o1

/-- Source `processOrders`: aggregate the rows into insertion-ordered
orders, then finalize each order. -/
def processOrders (rows : List ShopifyOrderRow) : List ProcessedOrder :=
  (rows.foldl addRow []).map finalizeOrder

/-- One cell of the export sheet: a JavaScript string or number. -/
inductive Cell where
  | s : String → Cell
  | n : JSNum → Cell
deriving DecidableEq, Repr

/-- A 29-position export row (`MovaExcelRow` in `types.ts`). -/
abbrev MovaExcelRow := List Cell

/-- The fixed header row (source `MOVA_HEADERS`, positions 0–28). -/
def MOVA_HEADERS : MovaExcelRow :=
  [Cell.s "通路訂單編號", Cell.s "收貨人", Cell.s "聯絡電話", Cell.s "送貨地址",
   Cell.s "備註", Cell.s "品號", Cell.s "金額合計", Cell.s "數量", Cell.s "單價",
   Cell.s "出貨倉庫", Cell.s "統一編號", Cell.s "代收貨款", Cell.s "業務員",
   Cell.s "來回件", Cell.s "附件", Cell.s "運輸方式", Cell.s "指定效期",
   Cell.s "客戶品號", Cell.s "ERP客戶代號", Cell.s "是否指定倉庫",
   Cell.s "發票號碼", Cell.s "載具號碼", Cell.s "發票開立日期",
   Cell.s "發票開立時間", Cell.s "統一編號(發票)", Cell.s "統一編號抬頭",
   Cell.s "通路訂單序號", Cell.s "網站訂單編號", Cell.s "Email"]

/-- The per-item export row of `convertToMovaRows`: an `Array(29)` filled
with `''` and then assigned position by position; the positions never
assigned (4, 10, 11, 16, 20, 22, 23) stay `''`.  Listed here in position
order 0–28. -/
def movaItemRow (o : ProcessedOrder) (it : ProcessedItem) : MovaExcelRow :=
  [Cell.s (jsOr o.paymentRef o.orderId),      -- 0 通路訂單編號
   Cell.s o.customer.name,                    -- 1 收貨人
   Cell.s o.customer.phone,                   -- 2 聯絡電話
   Cell.s o.customer.address,                 -- 3 送貨地址
   Cell.s "",                                 -- 4 備註
   Cell.s it.sku,                             -- 5 品號
   Cell.n (jmul it.price it.quantity),        -- 6 金額合計
   Cell.n it.quantity,                        -- 7 數量
   Cell.n it.price,                           -- 8 單價
   Cell.s "XF1400",                           -- 9 出貨倉庫
   Cell.s "",                                 -- 10 統一編號
   Cell.s "",                                 -- 11 代收貨款
   Cell.s "6301",                             -- 12 業務員
   Cell.s "N",                                -- 13 來回件
   Cell.s "N",                                -- 14 附件
   Cell.s "2",                                -- 15 運輸方式
   Cell.s "",                                 -- 16 指定效期
   Cell.s it.sku,                             -- 17 客戶品號
   Cell.s "F91000000",                        -- 18 ERP客戶代號
   Cell.s "N",                                -- 19 是否指定倉庫
   Cell.s "",                                 -- 20 發票號碼
   Cell.s o.carrierId,                        -- 21 載具號碼
   Cell.s "",                                 -- 22 發票開立日期
   Cell.s "",                                 -- 23 發票開立時間
   Cell.s (jsOr o.taxId ""),                  -- 24 統一編號(發票)
   Cell.s (jsOr o.companyName ""),            -- 25 統一編號抬頭
   Cell.s o.orderId,                          -- 26 通路訂單序號
   Cell.s o.shopifyId,                        -- 27 網站訂單編號
   Cell.s o.email]                            -- 28 Email

/-- Source `convertToMovaRows`: the header row, then one row per item of
each order, orders and items in sequence. -/
def convertToMovaRows (orders : List ProcessedOrder) : List MovaExcelRow :=
  MOVA_HEADERS :: orders.flatMap (fun o => o.items.map (movaItemRow o))

/-- Observer for the ordering specification: one step of first-seen
identifier collection (empty identifiers skipped, repeats kept once). -/
def seenStep (ids : List String) (r : ShopifyOrderRow) : List String :=
  if r.Name = "" then ids
  else if r.Name ∈ ids then ids
  else ids ++ [r.Name]

/-- Observer: the order identifiers of the input rows in first-seen order,
empty identifiers skipped. -/
def firstSeenIds (rows : List ShopifyOrderRow) : List String :=
  rows.foldl seenStep []

/-- Observer: the line items an order id collects from the input, in source
row order (rows with that id and a truthy `Lineitem name`). -/
def itemsOf (oid : String) (rows : List ShopifyOrderRow) : List ProcessedItem :=
  (rows.filter (fun r => r.Name == oid && r.LineitemName != "")).map mkItem

/-- The invariant of the aggregation fold: after consuming the rows `pr`,
the accumulator's identifiers are the first-seen identifiers of `pr`, and
every accumulated order has a truthy id and exactly its source items in
row order. -/
def AggInv (acc : List ProcessedOrder) (pr : List ShopifyOrderRow) : Prop :=
  acc.map (fun o => o.orderId) = firstSeenIds pr ∧
  ∀ o ∈ acc, ¬ o.orderId = "" ∧ o.items = itemsOf o.orderId pr

theorem mem_seenStep (ids : List String) (r : ShopifyOrderRow) (oid : String) :
    oid ∈ seenStep ids r ↔ oid ∈ ids ∨ (oid = r.Name ∧ ¬ oid = "") := by
  unfold seenStep
  split_ifs with h1 h2
  · constructor
    · exact Or.inl
    · rintro (h | ⟨rfl, hne⟩)
      · exact h
      · exact absurd h1 hne
  · constructor
    · exact Or.inl
    · rintro (h | ⟨rfl, _⟩)
      · exact h
      · exact h2
  · simp only [List.mem_append, List.mem_singleton]
    constructor
    · rintro (h | rfl)
      · exact Or.inl h
      · exact Or.inr ⟨rfl, h1⟩
    · rintro (h | ⟨rfl, _⟩)
      · exact Or.inl h
      · exact Or.inr rfl

theorem mem_foldl_seenStep (pr : List ShopifyOrderRow) :
    ∀ (ids : List String) (oid : String),
      oid ∈ pr.foldl seenStep ids ↔
        oid ∈ ids ∨ (¬ oid = "" ∧ ∃ r ∈ pr, r.Name = oid) := by
  induction pr with
  | nil => simp
  | cons r t ih =>
    intro ids oid
    rw [List.foldl_cons, ih, mem_seenStep]
    simp only [List.mem_cons]
    constructor
    · rintro ((h | ⟨rfl, hne⟩) | ⟨hne, x, hx, hn⟩)
      · exact Or.inl h
      · exact Or.inr ⟨hne, r, Or.inl rfl, rfl⟩
      · exact Or.inr ⟨hne, x, Or.inr hx, hn⟩
    · rintro (h | ⟨hne, x, (rfl | hx), hn⟩)
      · exact Or.inl (Or.inl h)
      · exact Or.inl (Or.inr ⟨hn.symm, hn ▸ hne⟩)
      · exact Or.inr ⟨hne, x, hx, hn⟩

theorem mem_firstSeenIds (rows : List ShopifyOrderRow) (oid : String) :
    oid ∈ firstSeenIds rows ↔ ¬ oid = "" ∧ ∃ r ∈ rows, r.Name = oid := by
  rw [firstSeenIds, mem_foldl_seenStep]
  simp

theorem firstSeenIds_append_one (pr : List ShopifyOrderRow) (r : ShopifyOrderRow) :
    firstSeenIds (pr ++ [r]) = seenStep (firstSeenIds pr) r := by
  simp [firstSeenIds, List.foldl_append]

theorem rowFilterPred (r : ShopifyOrderRow) (oid : String) :
    (r.Name == oid && r.LineitemName != "") = true ↔
      r.Name = oid ∧ ¬ r.LineitemName = "" := by
  simp [bne_iff_ne]

theorem itemsOf_append_one (oid : String) (pr : List ShopifyOrderRow)
    (r : ShopifyOrderRow) :
    itemsOf oid (pr ++ [r]) =
      itemsOf oid pr ++
        (if r.Name = oid ∧ ¬ r.LineitemName = "" then [mkItem r] else []) := by
  unfold itemsOf
  rw [List.filter_append, List.map_append]
  congr 1
  by_cases h : r.Name = oid ∧ ¬ r.LineitemName = ""
  · rw [if_pos h]
    have hb := (rowFilterPred r oid).mpr h
    simp [List.filter_singleton, hb]
  · rw [if_neg h]
    have hb : (r.Name == oid && r.LineitemName != "") = false := by
      rw [Bool.eq_false_iff]
      intro hc
      exact h ((rowFilterPred r oid).mp hc)
    simp [List.filter_singleton, hb]

theorem itemsOf_nil_of_not_mem (oid : String) (pr : List ShopifyOrderRow)
    (h : ∀ r ∈ pr, ¬ r.Name = oid) : itemsOf oid pr = [] := by
  unfold itemsOf
  rw [List.map_eq_nil_iff]
  rw [List.filter_eq_nil_iff]
  intro r hr
  simp only [Bool.and_eq_true, beq_iff_eq, bne_iff_ne, ne_eq, not_and]
  intro hn
  exact absurd hn (h r hr)

theorem any_orderId_iff (acc : List ProcessedOrder) (x : String) :
    acc.any (fun o => o.orderId == x) = true ↔
      x ∈ acc.map (fun o => o.orderId) := by
  rw [List.any_eq_true]
  constructor
  · rintro ⟨o, ho, hbe⟩
    exact List.mem_map.mpr ⟨o, ho, beq_iff_eq.mp hbe⟩
  · intro h
    obtain ⟨o, ho, heq⟩ := List.mem_map.mp h
    exact ⟨o, ho, beq_iff_eq.mpr heq⟩

theorem upd_orderId (r : ShopifyOrderRow) (o : ProcessedOrder) :
    (if o.orderId == r.Name then { o with items := o.items ++ [mkItem r] }
     else o).orderId = o.orderId := by
  split <;> rfl

theorem addRow_inv (acc : List ProcessedOrder) (pr : List ShopifyOrderRow)
    (r : ShopifyOrderRow) (h : AggInv acc pr) :
    AggInv (addRow acc r) (pr ++ [r]) := by
  obtain ⟨hmap, hord⟩ := h
  rw [AggInv, firstSeenIds_append_one]
  by_cases hname : r.Name = ""
  · -- a row with a falsy Name is skipped
    rw [addRow, if_pos hname, seenStep, if_pos hname]
    refine ⟨hmap, fun o ho => ?_⟩
    obtain ⟨hne, hit⟩ := hord o ho
    refine ⟨hne, ?_⟩
    rw [itemsOf_append_one, if_neg, List.append_nil]
    · exact hit
    · rintro ⟨heq, -⟩
      exact hne (by rw [← heq, hname])
  · rw [addRow, if_neg hname]
    by_cases hany : acc.any (fun o => o.orderId == r.Name) = true
    · -- the order id was already seen
      have hmem : r.Name ∈ firstSeenIds pr := by
        rw [← hmap]
        exact (any_orderId_iff acc r.Name).mp hany
      rw [if_pos hany, seenStep, if_neg hname, if_pos hmem]
      by_cases hline : r.LineitemName = ""
      · -- no line item on this row
        rw [if_pos hline]
        refine ⟨hmap, fun o ho => ?_⟩
        obtain ⟨hne, hit⟩ := hord o ho
        refine ⟨hne, ?_⟩
        rw [itemsOf_append_one, if_neg, List.append_nil]
        · exact hit
        · rintro ⟨-, hl⟩
          exact hl hline
      · -- append the item to the matching order
        rw [if_neg hline]
        constructor
        · rw [List.map_map]
          have hcomp :
              ((fun o : ProcessedOrder => o.orderId) ∘
                (fun o => if o.orderId == r.Name then
                    { o with items := o.items ++ [mkItem r] } else o)) =
                fun o : ProcessedOrder => o.orderId := by
            funext o
            exact upd_orderId r o
          rw [hcomp, hmap]
        · intro o' ho'
          obtain ⟨o, ho, rfl⟩ := List.mem_map.mp ho'
          obtain ⟨hne, hit⟩ := hord o ho
          by_cases hoe : o.orderId = r.Name
          · have hbe : (o.orderId == r.Name) = true := beq_iff_eq.mpr hoe
            rw [if_pos hbe]
            refine ⟨hne, ?_⟩
            show o.items ++ [mkItem r] = itemsOf o.orderId (pr ++ [r])
            rw [itemsOf_append_one, if_pos ⟨hoe.symm, hline⟩, hit]
          · have hbe : (o.orderId == r.Name) = false := by
              rw [beq_eq_false_iff_ne]
              exact hoe
            rw [if_neg (by simp [hbe])]
            refine ⟨hne, ?_⟩
            rw [itemsOf_append_one, if_neg, List.append_nil]
            · exact hit
            · rintro ⟨heq, -⟩
              exact hoe heq.symm
    · -- first encounter of the order id: a fresh order is inserted
      have hnotmem : r.Name ∉ firstSeenIds pr := by
        rw [← hmap]
        intro hc
        exact hany ((any_orderId_iff acc r.Name).mpr hc)
      have hnone : ∀ r2 ∈ pr, ¬ r2.Name = r.Name := by
        intro r2 hr2 hc
        exact hnotmem ((mem_firstSeenIds pr r.Name).mpr ⟨hname, r2, hr2, hc⟩)
      have hempty : itemsOf r.Name pr = [] := itemsOf_nil_of_not_mem _ _ hnone
      have hold : ∀ o ∈ acc, ¬ o.orderId = r.Name := by
        intro o ho hc
        exact hany ((any_orderId_iff acc r.Name).mpr
          (List.mem_map.mpr ⟨o, ho, hc⟩))
      rw [if_neg hany, seenStep, if_neg hname, if_neg hnotmem]
      by_cases hline : r.LineitemName = ""
      · rw [if_pos hline]
        constructor
        · rw [List.map_append, hmap]
          rfl
        · intro o ho
          rcases List.mem_append.mp ho with hoa | hob
          · obtain ⟨hne, hit⟩ := hord o hoa
            refine ⟨hne, ?_⟩
            rw [itemsOf_append_one, if_neg, List.append_nil]
            · exact hit
            · rintro ⟨heq, -⟩
              exact hold o hoa heq.symm
          · have : o = initOrder r := List.mem_singleton.mp hob
            subst this
            refine ⟨hname, ?_⟩
            rw [itemsOf_append_one, if_neg, List.append_nil]
            · exact hempty.symm
            · rintro ⟨-, hl⟩
              exact hl hline
      · rw [if_neg hline]
        constructor
        · rw [List.map_map]
          have hcomp :
              ((fun o : ProcessedOrder => o.orderId) ∘
                (fun o => if o.orderId == r.Name then
                    { o with items := o.items ++ [mkItem r] } else o)) =
                fun o : ProcessedOrder => o.orderId := by
            funext o
            exact upd_orderId r o
          rw [hcomp, List.map_append, hmap]
          rfl
        · intro o' ho'
          rw [List.map_append] at ho'
          rcases List.mem_append.mp ho' with hoa | hob
          · obtain ⟨o, ho, rfl⟩ := List.mem_map.mp hoa
            obtain ⟨hne, hit⟩ := hord o ho
            have hbe : (o.orderId == r.Name) = false := by
              rw [beq_eq_false_iff_ne]
              exact hold o ho
            rw [if_neg (by simp [hbe])]
            refine ⟨hne, ?_⟩
            rw [itemsOf_append_one, if_neg, List.append_nil]
            · exact hit
            · rintro ⟨heq, -⟩
              exact hold o ho heq.symm
          · have hbe : ((initOrder r).orderId == r.Name) = true :=
              beq_iff_eq.mpr rfl
            have ho2 : o' = { initOrder r with items := [mkItem r] } := by
              simp only [List.map_cons, List.map_nil, List.mem_singleton] at hob
              rw [hob, if_pos hbe]
              rfl
            rw [ho2]
            refine ⟨hname, ?_⟩
            show [mkItem r] = itemsOf r.Name (pr ++ [r])
            rw [itemsOf_append_one, hempty, if_pos ⟨rfl, hline⟩]
            rfl

theorem foldl_addRow_inv (rows : List ShopifyOrderRow) :
    ∀ (acc : List ProcessedOrder) (pr : List ShopifyOrderRow),
      AggInv acc pr → AggInv (rows.foldl addRow acc) (pr ++ rows) := by
  induction rows with
  | nil =>
    intro acc pr h
    simpa using h
  | cons r t ih =>
    intro acc pr h
    rw [List.foldl_cons]
    have step := addRow_inv acc pr r h
    have := ih (addRow acc r) (pr ++ [r]) step
    simpa [List.append_assoc] using this

theorem aggregation_inv (rows : List ShopifyOrderRow) :
    AggInv (rows.foldl addRow []) rows := by
  have base : AggInv [] [] := ⟨rfl, by simp⟩
  simpa using foldl_addRow_inv rows [] [] base

theorem finalizeOrder_eq (o : ProcessedOrder) :
    finalizeOrder o =
      if jlt (sumItems o.items) (jnum 1000) = true then
        { o with subtotal := sumItems o.items, items := o.items ++ [addonItem] }
      else { o with subtotal := sumItems o.items } := by
  rw [finalizeOrder]

theorem finalizeOrder_orderId (o : ProcessedOrder) :
    (finalizeOrder o).orderId = o.orderId := by
  rw [finalizeOrder_eq]
  split <;> rfl

theorem processOrders_map_orderId (rows : List ShopifyOrderRow) :
    (processOrders rows).map (fun o => o.orderId) = firstSeenIds rows := by
  rw [processOrders, List.map_map]
  have hcomp :
      ((fun o : ProcessedOrder => o.orderId) ∘ finalizeOrder) =
        fun o : ProcessedOrder => o.orderId :=
    funext fun o => finalizeOrder_orderId o
  rw [hcomp]
  exact (aggregation_inv rows).1

theorem processOrders_char (rows : List ShopifyOrderRow) (o : ProcessedOrder)
    (h : o ∈ processOrders rows) :
    ¬ o.orderId = "" ∧
    o.subtotal = sumItems (itemsOf o.orderId rows) ∧
    o.items = itemsOf o.orderId rows ++
      (if jlt (sumItems (itemsOf o.orderId rows)) (jnum 1000) = true
       then [addonItem] else []) := by
  rw [processOrders] at h
  obtain ⟨o0, ho0, rfl⟩ := List.mem_map.mp h
  obtain ⟨hne, hit⟩ := (aggregation_inv rows).2 o0 ho0
  rw [finalizeOrder_eq]
  by_cases hb : jlt (sumItems o0.items) (jnum 1000) = true
  · rw [if_pos hb]
    refine ⟨hne, ?_, ?_⟩
    · show sumItems o0.items = sumItems (itemsOf o0.orderId rows)
      rw [hit]
    · show o0.items ++ [addonItem] =
        itemsOf o0.orderId rows ++
          (if jlt (sumItems (itemsOf o0.orderId rows)) (jnum 1000) = true
           then [addonItem] else [])
      rw [← hit, if_pos hb]
  · rw [if_neg hb]
    refine ⟨hne, ?_, ?_⟩
    · show sumItems o0.items = sumItems (itemsOf o0.orderId rows)
      rw [hit]
    · show o0.items =
        itemsOf o0.orderId rows ++
          (if jlt (sumItems (itemsOf o0.orderId rows)) (jnum 1000) = true
           then [addonItem] else [])
      rw [← hit, if_neg hb, List.append_nil]

theorem itemsOf_not_addon (oid : String) (rows : List ShopifyOrderRow) :
    ∀ it ∈ itemsOf oid rows, it.isSystemAddon = false := by
  intro it hit
  obtain ⟨r, -, rfl⟩ := List.mem_map.mp hit
  rfl

theorem itemsOf_filter_real (oid : String) (rows : List ShopifyOrderRow) :
    (itemsOf oid rows).filter (fun it => !it.isSystemAddon) = itemsOf oid rows := by
  rw [List.filter_eq_self]
  intro it hit
  rw [itemsOf_not_addon oid rows it hit]
  rfl

theorem itemsOf_filter_addon (oid : String) (rows : List ShopifyOrderRow) :
    (itemsOf oid rows).filter (fun it => it.isSystemAddon) = [] := by
  rw [List.filter_eq_nil_iff]
  intro it hit
  rw [itemsOf_not_addon oid rows it hit]
  exact Bool.false_ne_true

theorem addRow_skip (acc : List ProcessedOrder) (r : ShopifyOrderRow)
    (h : r.Name = "") : addRow acc r = acc := by
  rw [addRow, if_pos h]

theorem foldl_addRow_filter (rows : List ShopifyOrderRow) :
    ∀ acc : List ProcessedOrder,
      (rows.filter (fun r => r.Name != "")).foldl addRow acc =
        rows.foldl addRow acc := by
  induction rows with
  | nil => intro acc; rfl
  | cons r t ih =>
    intro acc
    by_cases h : r.Name = ""
    · have hb : (r.Name != "") = false := by
        simp [bne, h]
      rw [List.filter_cons, hb, if_neg Bool.false_ne_true, List.foldl_cons,
        addRow_skip acc r h]
      exact ih acc
    · have hb : (r.Name != "") = true := bne_iff_ne.mpr h
      rw [List.filter_cons, hb, if_pos rfl, List.foldl_cons, List.foldl_cons]
      exact ih (addRow acc r)

theorem processOrders_skip (rows : List ShopifyOrderRow) :
    processOrders (rows.filter (fun r => r.Name != "")) = processOrders rows := by
  rw [processOrders, processOrders, foldl_addRow_filter]

theorem jsOr_empty (x : String) : jsOr x "" = x := by
  rw [jsOr]
  split_ifs with h
  · exact h.symm
  · rfl

theorem convertToMovaRows_length (orders : List ProcessedOrder) :
    (convertToMovaRows orders).length =
      1 + (orders.map (fun o => o.items.length)).sum := by
  simp only [convertToMovaRows, List.length_cons, List.length_flatMap]
  rw [Nat.add_comm]
  congr 1
  apply congrArg
  apply List.map_congr_left
  intro o _
  simp

theorem cleanPhone_eq_spec (s : String) : cleanPhone s = cleanPhoneSpec s := by
  by_cases hs : s = ""
  · subst hs
    decide
  · simp only [cleanPhone, cleanPhoneSpec, if_neg hs]
    by_cases h8 : ['8', '8', '6'].isPrefixOf (s.toList.filter Char.isDigit) = true
    · rw [if_pos h8, if_pos h8]
      have h9 : ¬ ((['9'].isPrefixOf
          ('0' :: (s.toList.filter Char.isDigit).drop 3)) = true ∧
          ('0' :: (s.toList.filter Char.isDigit).drop 3).length = 9) :=
        fun hc => Bool.false_ne_true hc.1
      rw [if_neg h9]
    · rw [if_neg h8, if_neg h8]
      by_cases h9 : (['9'].isPrefixOf (s.toList.filter Char.isDigit)) = true ∧
          (s.toList.filter Char.isDigit).length = 9
      · rw [if_pos h9, if_pos h9]
      · rw [if_neg h9, if_neg h9]

/-- Claim C1: every order produced by `processOrders` stores as subtotal the
sum of unit price × quantity over its real (non-addon) line items, the
source-reported `Subtotal` playing no part; and exactly one system-addon
line item (`addonItem`: sku `Z90001`, quantity 1, price 120, marked
`isSystemAddon`) is appended at the end iff that recomputed subtotal is
strictly below 1000 (`jlt`, the source's `<` comparator), the addon's own
price never being reflected back into the stored subtotal. -/
theorem claim1_businessRule (rows : List ShopifyOrderRow) (o : ProcessedOrder)
    (h : o ∈ processOrders rows) :
    o.subtotal = sumItems (o.items.filter (fun it => !it.isSystemAddon)) ∧
    (jlt o.subtotal (jnum 1000) = true →
      o.items.filter (fun it => it.isSystemAddon) = [addonItem] ∧
      o.items.getLast? = some addonItem) ∧
    (jlt o.subtotal (jnum 1000) = false →
      o.items.filter (fun it => it.isSystemAddon) = []) := by
  obtain ⟨-, hsub, hitems⟩ := processOrders_char rows o h
  by_cases hb : jlt (sumItems (itemsOf o.orderId rows)) (jnum 1000) = true
  · rw [if_pos hb] at hitems
    have hreal :
        o.items.filter (fun it => !it.isSystemAddon) = itemsOf o.orderId rows := by
      rw [hitems, List.filter_append, itemsOf_filter_real,
        show List.filter (fun it => !it.isSystemAddon) [addonItem] = [] from rfl,
        List.append_nil]
    have haddon :
        o.items.filter (fun it => it.isSystemAddon) = [addonItem] := by
      rw [hitems, List.filter_append, itemsOf_filter_addon,
        show List.filter (fun it => it.isSystemAddon) [addonItem] = [addonItem]
          from rfl,
        List.nil_append]
    refine ⟨by rw [hreal]; exact hsub, fun _ => ⟨haddon, ?_⟩, fun hfalse => ?_⟩
    · rw [hitems]
      exact List.getLast?_concat _
    · rw [hsub, hb] at hfalse
      exact absurd hfalse.symm Bool.false_ne_true
  · rw [if_neg hb, List.append_nil] at hitems
    have hreal :
        o.items.filter (fun it => !it.isSystemAddon) = itemsOf o.orderId rows := by
      rw [hitems, itemsOf_filter_real]
    have haddon : o.items.filter (fun it => it.isSystemAddon) = [] := by
      rw [hitems, itemsOf_filter_addon]
    refine ⟨by rw [hreal]; exact hsub, fun htrue => ?_, fun _ => haddon⟩
    rw [hsub] at htrue
    exact absurd htrue hb

/-- Witness row for claim C1: one real item summing to 999 (below the
threshold). -/
def rowW1 : ShopifyOrderRow :=
  { Name := "#W1", LineitemName := "Widget", LineitemQuantity := "1",
    LineitemPrice := "999" }

/-- Witness row for claim C1: one real item summing to exactly 1000 (at the
threshold, so no addon). -/
def rowW1b : ShopifyOrderRow :=
  { Name := "#W2", LineitemName := "Widget", LineitemQuantity := "1",
    LineitemPrice := "1000" }

/-- The order produced for `rowW1`. -/
def orderW1 : ProcessedOrder := (processOrders [rowW1]).headI

/-- The order produced for `rowW1b`. -/
def orderW1b : ProcessedOrder := (processOrders [rowW1b]).headI

/-- Witness for claim C1, at a 999-subtotal order (addon appended) and a
1000-subtotal order (no addon). -/
theorem claim1_witness :
    (orderW1 ∈ processOrders [rowW1]) ∧
    orderW1.items.filter (fun it => it.isSystemAddon) = [addonItem] ∧
    (orderW1b ∈ processOrders [rowW1b]) ∧
    orderW1b.items.filter (fun it => it.isSystemAddon) = [] :=
  ⟨by decide,
   ((claim1_businessRule [rowW1] orderW1 (by decide)).2.1 (by decide)).1,
   by decide,
   (claim1_businessRule [rowW1b] orderW1b (by decide)).2.2 (by decide)⟩

/-- An order holding one real 500-priced item, then finalized once: it
carries the shipping addon and subtotal 500. -/
def orderFin500 : ProcessedOrder :=
  finalizeOrder
    { orderId := "#S1",
      items := [{ sku := "A1", name := "Gadget", quantity := jnum 1,
                  price := jnum 500 }] }

/-- Claim C3 evidence: the finalization steps are NOT idempotent.  The
once-finalized 500-subtotal order carries one addon; running the
finalization a second time recomputes the subtotal over all items including
the addon (620, still below 1000) and appends a second addon. -/
theorem claim3_finalize_not_idempotent :
    ((orderFin500.items.filter (fun it => it.isSystemAddon)).length = 1 ∧
      orderFin500.subtotal = jnum 500) ∧
    (finalizeOrder orderFin500).subtotal = jnum 620 ∧
    ((finalizeOrder orderFin500).items.filter
      (fun it => it.isSystemAddon)).length = 2 := by
  decide

/-- Claim C4 (amended): absent (empty/missing) numeric fields fall back to
the string `"0"` and parse to 0; aggregation never fails.  (The unamended
claim also covered unparseable non-empty fields, which in fact yield `NaN`:
see the counterexample.) -/
theorem claim4_absent_numeric_zero (row : ShopifyOrderRow)
    (hq : row.LineitemQuantity = "") (hp : row.LineitemPrice = "")
    (hs : row.Subtotal = "") (hsh : row.Shipping = "") (ht : row.Total = "") :
    (initOrder row).originalSubtotal = jnum 0 ∧
    (initOrder row).shippingFee = jnum 0 ∧
    (initOrder row).total = jnum 0 ∧
    (mkItem row).quantity = jnum 0 ∧
    (mkItem row).price = jnum 0 := by
  have h0f : parseFloat "0" = jnum 0 := by decide
  have h0i : parseInt10 "0" = jnum 0 := by decide
  refine ⟨?_, ?_, ?_, ?_, ?_⟩ <;>
    simp [initOrder, mkItem, jsOr, hq, hp, hs, hsh, ht, h0f, h0i]

/-- Witness row for claim C4: all numeric fields absent. -/
def rowW4 : ShopifyOrderRow := { Name := "#W4" }

/-- Witness for claim C4 at a row with every numeric field absent. -/
theorem claim4_witness :
    (rowW4.LineitemQuantity = "" ∧ rowW4.LineitemPrice = "" ∧
      rowW4.Subtotal = "" ∧ rowW4.Shipping = "" ∧ rowW4.Total = "") ∧
    ((initOrder rowW4).originalSubtotal = jnum 0 ∧
      (initOrder rowW4).shippingFee = jnum 0 ∧
      (initOrder rowW4).total = jnum 0 ∧
      (mkItem rowW4).quantity = jnum 0 ∧
      (mkItem rowW4).price = jnum 0) :=
  ⟨⟨rfl, rfl, rfl, rfl, rfl⟩,
   claim4_absent_numeric_zero rowW4 rfl rfl rfl rfl rfl⟩

/-- A row whose `Subtotal` and `Lineitem quantity` are non-empty but carry
no parseable numeric prefix. -/
def rowBad4 : ShopifyOrderRow :=
  { Name := "#B4", Subtotal := "abc", LineitemName := "X",
    LineitemQuantity := "abc" }

/-- Counterexample to claim C4 as stated: an unparseable non-empty numeric
field is NOT treated as zero — `parseFloat`/`parseInt` return `NaN`, which
is what the processed fields hold. -/
theorem claim4_counterexample :
    (initOrder rowBad4).originalSubtotal = JSNum.nan ∧
    ¬ (initOrder rowBad4).originalSubtotal = jnum 0 ∧
    (mkItem rowBad4).quantity = JSNum.nan ∧
    ¬ (mkItem rowBad4).quantity = jnum 0 := by
  decide

/-- Claim C5 (amended): the boundary checks fail in exactly two cases —
zero parsed rows (`emptyInputMsg`), and a first record lacking the `Name`
KEY (`missingNameMsg`, which enumerates the detected header set); whenever
the first record has the `Name` key (even with an empty value) the rows are
accepted, and the later aggregation/projection stages are total functions. -/
theorem claim5_boundary_checks (rows : List RawRecord) :
    (rows = [] → parseShopifyCSV rows = Except.error emptyInputMsg) ∧
    (∀ r t, rows = r :: t → hasKey r "Name" = false →
      parseShopifyCSV rows = Except.error (missingNameMsg r)) ∧
    (∀ r t, rows = r :: t → hasKey r "Name" = true →
      parseShopifyCSV rows = Except.ok rows) := by
  refine ⟨fun he => ?_, fun r t he hk => ?_, fun r t he hk => ?_⟩
  · subst he
    rfl
  · subst he
    rw [parseShopifyCSV]
    rw [if_neg]
    rw [hk]
    exact Bool.false_ne_true
  · subst he
    rw [parseShopifyCSV, if_pos hk]

/-- Witness for claim C5: the three boundary outcomes at concrete inputs. -/
theorem claim5_witness :
    parseShopifyCSV [] = Except.error emptyInputMsg ∧
    parseShopifyCSV [[("Foo", "1")]] =
      Except.error (missingNameMsg [("Foo", "1")]) ∧
    parseShopifyCSV [[("Name", "#1001")]] = Except.ok [[("Name", "#1001")]] :=
  ⟨(claim5_boundary_checks []).1 rfl,
   (claim5_boundary_checks [[("Foo", "1")]]).2.1 _ _ rfl (by decide),
   (claim5_boundary_checks [[("Name", "#1001")]]).2.2 _ _ rfl (by decide)⟩

/-- Counterexample to claim C5 as stated: a first record whose `Name` field
is present but EMPTY passes the check — the source tests key presence
(`'Name' in rows[0]`), not non-emptiness, so this input succeeds although
the claim says it must fail. -/
theorem claim5_counterexample :
    hasKey [("Name", "")] "Name" = true ∧
    parseShopifyCSV [[("Name", "")]] = Except.ok [[("Name", "")]] :=
  ⟨by decide, rfl⟩

/-- Claim C6: `processOrders` skips rows with a falsy order identifier,
returns orders in first-seen order of their identifiers, and lists each
order's items in source row order with any shipping addon last. -/
theorem claim6_ordering (rows : List ShopifyOrderRow) :
    processOrders (rows.filter (fun r => r.Name != "")) = processOrders rows ∧
    (processOrders rows).map (fun o => o.orderId) = firstSeenIds rows ∧
    ∀ o ∈ processOrders rows,
      o.items = itemsOf o.orderId rows ++
        (if jlt (sumItems (itemsOf o.orderId rows)) (jnum 1000) = true
         then [addonItem] else []) :=
  ⟨processOrders_skip rows, processOrders_map_orderId rows,
   fun o h => (processOrders_char rows o h).2.2⟩

/-- Witness rows for claim C6: two interleaved order ids and one row with
an empty id. -/
def rowsW6 : List ShopifyOrderRow :=
  [{ Name := "#B", LineitemName := "I1", LineitemQuantity := "1",
     LineitemPrice := "600" },
   { Name := "" },
   { Name := "#A", LineitemName := "I2", LineitemQuantity := "1",
     LineitemPrice := "2000" },
   { Name := "#B", LineitemName := "I3", LineitemQuantity := "1",
     LineitemPrice := "500" }]

/-- The first order produced for `rowsW6` (the `#B` order). -/
def orderW6 : ProcessedOrder := (processOrders rowsW6).headI

/-- Witness for claim C6, at the interleaved row list. -/
theorem claim6_witness :
    (orderW6 ∈ processOrders rowsW6) ∧
    orderW6.items = itemsOf orderW6.orderId rowsW6 ++
      (if jlt (sumItems (itemsOf orderW6.orderId rowsW6)) (jnum 1000) = true
       then [addonItem] else []) :=
  ⟨by decide, (claim6_ordering rowsW6).2.2 orderW6 (by decide)⟩

theorem itemsOf_nil_of_no_names (oid : String) (rows : List ShopifyOrderRow)
    (h : ∀ r ∈ rows, r.Name = oid → r.LineitemName = "") :
    itemsOf oid rows = [] := by
  unfold itemsOf
  rw [List.map_eq_nil_iff, List.filter_eq_nil_iff]
  intro r hr hc
  obtain ⟨hn, hl⟩ := (rowFilterPred r oid).mp hc
  exact hl (h r hr hn)

/-- Claim C10: an order identifier all of whose rows lack a line-item name
still yields an order — with subtotal 0, exactly the shipping addon as its
item list, and hence exactly one export row; it is never dropped. -/
theorem claim10_empty_order (rows : List ShopifyOrderRow) (oid : String)
    (h1 : ¬ oid = "") (h2 : ∃ r ∈ rows, r.Name = oid)
    (h3 : ∀ r ∈ rows, r.Name = oid → r.LineitemName = "") :
    ∃ o, o ∈ processOrders rows ∧ o.orderId = oid ∧ o.subtotal = jnum 0 ∧
      o.items = [addonItem] ∧ (o.items.map (movaItemRow o)).length = 1 := by
  have hmem : oid ∈ firstSeenIds rows := (mem_firstSeenIds rows oid).mpr ⟨h1, h2⟩
  rw [← processOrders_map_orderId] at hmem
  obtain ⟨o, ho, hoid⟩ := List.mem_map.mp hmem
  obtain ⟨-, hsub, hitems⟩ := processOrders_char rows o ho
  have hempty : itemsOf oid rows = [] := itemsOf_nil_of_no_names oid rows h3
  have hitems2 : o.items = [addonItem] := by
    rw [hitems, hoid, hempty]
    decide
  refine ⟨o, ho, hoid, ?_, hitems2, ?_⟩
  · rw [hsub, hoid, hempty]
    decide
  · rw [hitems2]
    rfl

/-- Witness rows for claim C10: one row carrying only an order id. -/
def rowsW10 : List ShopifyOrderRow := [{ Name := "#E1" }]

/-- Witness for claim C10 at a single item-less row. -/
theorem claim10_witness :
    (¬ "#E1" = "" ∧ (∃ r ∈ rowsW10, r.Name = "#E1") ∧
      (∀ r ∈ rowsW10, r.Name = "#E1" → r.LineitemName = "")) ∧
    (∃ o, o ∈ processOrders rowsW10 ∧ o.orderId = "#E1" ∧
      o.subtotal = jnum 0 ∧ o.items = [addonItem] ∧
      (o.items.map (movaItemRow o)).length = 1) :=
  ⟨⟨by decide, by decide, by decide⟩,
   claim10_empty_order rowsW10 "#E1" (by decide) (by decide) (by decide)⟩

/-- A note-attributes blob declaring a company invoice with both company
pairs present. -/
def blobCompany : String :=
  "發票種類(InvoiceType): company\n統一編號(CompanyId): 12345678\n公司名稱(CompanyName): Acme Co"

/-- A personal-invoice blob that still carries company pairs. -/
def blobPersonal : String :=
  "發票種類(InvoiceType): personal\n統一編號(CompanyId): 12345678\n公司名稱(CompanyName): Acme Co"

/-- A company-invoice blob (mixed case) with the company-name pair
missing. -/
def blobNoName : String :=
  "發票種類(InvoiceType): Company\n統一編號(CompanyId): 12345678"

/-- Claim C7: `parseInvoiceInfo` yields empty tax id and company name
whenever the blob is absent or its invoice type (trimmed,
case-insensitively) is not `company`, regardless of any company pairs
present; for a company-type blob the `CompanyId` and `CompanyName` pairs
are matched independently, a missing one yielding `""`. -/
theorem claim7_invoice :
    (∀ attrs, parseInvoiceInfo attrs =
      if invoiceTypeOf attrs = "company" then (taxIdOf attrs, companyNameOf attrs)
      else ("", "")) ∧
    parseInvoiceInfo blobCompany = ("12345678", "Acme Co") ∧
    parseInvoiceInfo blobPersonal = ("", "") ∧
    parseInvoiceInfo blobNoName = ("12345678", "") ∧
    parseInvoiceInfo "" = ("", "") := by
  refine ⟨fun attrs => ?_, by decide, by decide, by decide, by decide⟩
  by_cases ha : attrs = ""
  · subst ha
    decide
  · rw [parseInvoiceInfo, if_neg ha]
    by_cases ht : invoiceTypeOf attrs = "company"
    · rw [if_neg (not_not_intro ht), if_pos ht]
    · rw [if_pos ht, if_neg ht]

/-- Claim C8: the phone normalizer agrees with the specified algorithm
(strip non-digits; replace a leading `886` by `0`; else prepend `0` to a
bare 9-digit mobile number starting with `9`; empty input yields empty
output), with the spec's concrete examples. -/
theorem claim8_phone :
    (∀ s, cleanPhone s = cleanPhoneSpec s) ∧
    cleanPhone "+886912345678" = "0912345678" ∧
    cleanPhone "912345678" = "0912345678" ∧
    cleanPhone "0912345678" = "0912345678" ∧
    cleanPhone "" = "" :=
  ⟨cleanPhone_eq_spec, by decide, by decide, by decide, rfl⟩

/-- Claim C9: the address formatter returns the shipping street trimmed
when it is present and non-empty, otherwise the billing street verbatim
(untrimmed), otherwise `""` — the trim happens only on the preferred
branch. -/
theorem claim9_address :
    (∀ row : ShopifyOrderRow, formatAddress row =
      if row.ShippingStreet = "" then row.BillingStreet
      else jsTrim row.ShippingStreet) ∧
    formatAddress ({ ShippingStreet := "  7 Elm St  " } : ShopifyOrderRow) =
      "7 Elm St" ∧
    formatAddress ({ BillingStreet := "  9 Oak Ave  " } : ShopifyOrderRow) =
      "  9 Oak Ave  " ∧
    formatAddress ({} : ShopifyOrderRow) = "" := by
  refine ⟨fun row => ?_, by decide, by decide, rfl⟩
  rw [formatAddress]
  by_cases h : row.ShippingStreet = ""
  · rw [if_neg (not_not_intro h), if_pos h, jsOr_empty]
  · rw [if_pos h, if_neg h]

/-- Default cell used with `List.getD` in claim C2 (never actually
selected: every item row has 29 positions). -/
def cellDefault : Cell := Cell.n JSNum.nan

/-- The single-item order of claim C2's concrete example (sku `A1`,
quantity 2, price 50). -/
def exOrder2 : ProcessedOrder :=
  { orderId := "#M1",
    items := [{ sku := "A1", name := "Prod", quantity := jnum 2,
                price := jnum 50 }] }

/-- Claim C2: `convertToMovaRows` emits the fixed header row followed by
exactly one 29-position row per line item of each order in sequence, with
the fixed position mapping (payment reference falling back to order id at
0, item fields at 5–8 and 17, the documented constants, and the
deliberately emptied positions 4, 10, 11, 16, 20, 22, 23). -/
theorem claim2_projection :
    (∀ orders : List ProcessedOrder,
      convertToMovaRows orders =
        MOVA_HEADERS :: orders.flatMap (fun o => o.items.map (movaItemRow o))) ∧
    (∀ orders : List ProcessedOrder,
      (convertToMovaRows orders).length =
        1 + (orders.map (fun o => o.items.length)).sum) ∧
    MOVA_HEADERS.length = 29 ∧
    (∀ (o : ProcessedOrder) (it : ProcessedItem),
      (movaItemRow o it).length = 29 ∧
      (movaItemRow o it).getD 0 cellDefault = Cell.s (jsOr o.paymentRef o.orderId) ∧
      (movaItemRow o it).getD 1 cellDefault = Cell.s o.customer.name ∧
      (movaItemRow o it).getD 2 cellDefault = Cell.s o.customer.phone ∧
      (movaItemRow o it).getD 3 cellDefault = Cell.s o.customer.address ∧
      (movaItemRow o it).getD 4 cellDefault = Cell.s "" ∧
      (movaItemRow o it).getD 5 cellDefault = Cell.s it.sku ∧
      (movaItemRow o it).getD 6 cellDefault = Cell.n (jmul it.price it.quantity) ∧
      (movaItemRow o it).getD 7 cellDefault = Cell.n it.quantity ∧
      (movaItemRow o it).getD 8 cellDefault = Cell.n it.price ∧
      (movaItemRow o it).getD 9 cellDefault = Cell.s "XF1400" ∧
      (movaItemRow o it).getD 10 cellDefault = Cell.s "" ∧
      (movaItemRow o it).getD 11 cellDefault = Cell.s "" ∧
      (movaItemRow o it).getD 12 cellDefault = Cell.s "6301" ∧
      (movaItemRow o it).getD 13 cellDefault = Cell.s "N" ∧
      (movaItemRow o it).getD 14 cellDefault = Cell.s "N" ∧
      (movaItemRow o it).getD 15 cellDefault = Cell.s "2" ∧
      (movaItemRow o it).getD 16 cellDefault = Cell.s "" ∧
      (movaItemRow o it).getD 17 cellDefault = Cell.s it.sku ∧
      (movaItemRow o it).getD 18 cellDefault = Cell.s "F91000000" ∧
      (movaItemRow o it).getD 19 cellDefault = Cell.s "N" ∧
      (movaItemRow o it).getD 20 cellDefault = Cell.s "" ∧
      (movaItemRow o it).getD 21 cellDefault = Cell.s o.carrierId ∧
      (movaItemRow o it).getD 22 cellDefault = Cell.s "" ∧
      (movaItemRow o it).getD 23 cellDefault = Cell.s "" ∧
      (movaItemRow o it).getD 24 cellDefault = Cell.s (jsOr o.taxId "") ∧
      (movaItemRow o it).getD 25 cellDefault = Cell.s (jsOr o.companyName "") ∧
      (movaItemRow o it).getD 26 cellDefault = Cell.s o.orderId ∧
      (movaItemRow o it).getD 27 cellDefault = Cell.s o.shopifyId ∧
      (movaItemRow o it).getD 28 cellDefault = Cell.s o.email) ∧
    ((convertToMovaRows [exOrder2]).getD 1 []).getD 6 cellDefault =
      Cell.n (jnum 100) ∧
    ((convertToMovaRows [exOrder2]).getD 1 []).getD 7 cellDefault =
      Cell.n (jnum 2) ∧
    ((convertToMovaRows [exOrder2]).getD 1 []).getD 9 cellDefault =
      Cell.s "XF1400" := by
  refine ⟨fun orders => rfl, convertToMovaRows_length, rfl, fun o it => ?_,
    by decide, by decide, by decide⟩
  exact ⟨rfl, rfl, rfl, rfl, rfl, rfl, rfl, rfl, rfl, rfl, rfl, rfl, rfl, rfl,
    rfl, rfl, rfl, rfl, rfl, rfl, rfl, rfl, rfl, rfl, rfl, rfl, rfl, rfl, rfl,
    rfl⟩
